import Mathlib

/-!
Verification of the example scripts in `examples/claude-3rd-party-platforms`.

The Python scripts are shallowly embedded: the remote API is an explicit
parameter (a function from the attempt index, or from the request payload, to
an outcome), the filesystem is a partial map from paths to byte lists, and the
side effects that the specification talks about (sleeps, remote attempts,
printed lines, exit codes) are recorded in explicit trace structures.
-/

namespace ClaudePlatforms

/-! ## Error model for `bedrock_error_handling.py`

`RateLimitError` and `APIError` are the two exception classes the retry loop
distinguishes; anything else lands in the generic `except Exception` branch.
-/

inductive Err where
  | rateLimit
  | apiError (msg : String)
  | other
deriving DecidableEq

/-- One attempt of the remote call either returns a response or raises. -/
inductive Outcome (α : Type) where
  | ok (r : α)
  | err (e : Err)

/-- How `call_with_retry` terminates: re-raising an underlying error, or the
final `raise Exception("Failed after max retries")` after the loop. -/
inductive RetryFailure where
  | raised (e : Err)
  | maxRetriesExhausted
deriving DecidableEq

/-- Trace of one invocation of `call_with_retry`: the sleep durations in
order, the number of remote attempts made, and the final result. -/
structure RetryTrace (α : Type) where
  sleeps : List Nat
  attempts : Nat
  result : Except RetryFailure α

/-- Substring test on character lists, embedding Python's `in` on strings. -/
def containsSub (needle : List Char) : List Char → Bool
  | [] => needle.isEmpty
  | c :: t => needle.isPrefixOf (c :: t) || containsSub needle t

/-- Python's `"ThrottlingException" in error_msg`. -/
def containsThrottlingMarker (msg : String) : Bool :=
  containsSub "ThrottlingException".toList msg.toList

/-- The body of the `for attempt in range(max_retries)` loop of
`call_with_retry`, with `remaining = max_retries - attempt` iterations left.
`behavior k` is what `client.messages.create` does on the k-th attempt
(0-indexed). -/
def callWithRetryAux {α : Type} (behavior : Nat → Outcome α) (maxRetries : Nat) :
    Nat → Nat → RetryTrace α
  | _, 0 => ⟨[], 0, .error .maxRetriesExhausted⟩
  | attempt, remaining + 1 =>
    match behavior attempt with
    | .ok r => ⟨[], 1, .ok r⟩
    | .err .rateLimit =>
      if attempt < maxRetries - 1 then
        let rest := callWithRetryAux behavior maxRetries (attempt + 1) remaining
        ⟨2 ^ attempt :: rest.sleeps, rest.attempts + 1, rest.result⟩
      else
        ⟨[], 1, .error (.raised .rateLimit)⟩
    | .err (.apiError msg) =>
      if containsThrottlingMarker msg then
        if attempt < maxRetries - 1 then
          let rest := callWithRetryAux behavior maxRetries (attempt + 1) remaining
          ⟨2 ^ attempt :: rest.sleeps, rest.attempts + 1, rest.result⟩
        else
          ⟨[], 1, .error (.raised (.apiError msg))⟩
      else
        ⟨[], 1, .error (.raised (.apiError msg))⟩
    | .err .other => ⟨[], 1, .error (.raised .other)⟩

/-- `call_with_retry(client, max_retries)` from `bedrock_error_handling.py`. -/
def call_with_retry {α : Type} (behavior : Nat → Outcome α) (max_retries : Nat) :
    RetryTrace α :=
  callWithRetryAux behavior max_retries 0 max_retries

example :
    call_with_retry (fun k => if k < 2 then .err .rateLimit else .ok 7) 3 =
      ⟨[1, 2], 3, .ok 7⟩ := by
  rfl

example :
    (call_with_retry (fun _ => Outcome.err (α := Nat) Err.rateLimit) 3).sleeps =
      [1, 2] := by
  rfl

/-! ## `bedrock_vision.py`

The filesystem is a partial map from path strings to byte contents (bytes as
`Nat`, the source reads the file in binary mode). `encode_image` is total over
that model and returns `Except`, matching the raised `FileNotFoundError` and
`ValueError`.
-/

/-- A filesystem snapshot: `fs path = some bytes` iff the path exists. -/
def FileSystem : Type := String → Option (List Nat)

/-- Split a character list on a separator character. -/
def splitOnChar (sep : Char) : List Char → List (List Char)
  | [] => [[]]
  | c :: rest =>
    if c = sep then
      [] :: splitOnChar sep rest
    else
      match splitOnChar sep rest with
      | [] => [[c]]
      | h :: t => (c :: h) :: t

/-- The last nonempty `/`-separated component of a path, as in
`pathlib.PurePath.name`. -/
def pathName (path : String) : String :=
  String.mk (((splitOnChar '/' path.toList).filter (fun s => s ≠ [])).getLastD [])

/-- Index of the last `.` in a character list, if any. -/
def lastDotPos : List Char → Option Nat
  | [] => none
  | c :: rest =>
    match lastDotPos rest with
    | some j => some (j + 1)
    | none => if c = '.' then some 0 else none

/-- `pathlib.PurePath.suffix`: the extension of the final component including
the leading dot, empty when the last dot is leading or trailing. -/
def pathSuffix (path : String) : String :=
  let cs := (pathName path).toList
  match lastDotPos cs with
  | some i => if 0 < i ∧ i < cs.length - 1 then String.mk (cs.drop i) else ""
  | none => ""

example : pathSuffix "/path/to/image.png" = ".png" := by decide
example : pathSuffix "photo.PNG" = ".PNG" := by decide
example : pathSuffix "archive.tar.gz" = ".gz" := by decide
example : pathSuffix "/etc/hosts" = "" := by decide

/-- The standard base64 alphabet. -/
def base64Alphabet : List Char :=
  "ABCDEFGHIJKLMNOPQRSTUVWXYZabcdefghijklmnopqrstuvwxyz0123456789+/".toList

/-- The base64 digit for a 6-bit value. -/
def b64Char (n : Nat) : Char := base64Alphabet.getD n '='

/-- Encode one final group of at most three bytes, padding with `=`. -/
def base64Chunk : List Nat → List Char
  | [b0] => [b64Char (b0 / 4), b64Char (b0 % 4 * 16), '=', '=']
  | [b0, b1] =>
    [b64Char (b0 / 4), b64Char (b0 % 4 * 16 + b1 / 16), b64Char (b1 % 16 * 4), '=']
  | [b0, b1, b2] =>
    [b64Char (b0 / 4), b64Char (b0 % 4 * 16 + b1 / 16),
      b64Char (b1 % 16 * 4 + b2 / 64), b64Char (b2 % 64)]
  | _ => []

/-- Standard base64 over a byte list, three bytes at a time. -/
def base64EncodeList : List Nat → List Char
  | [] => []
  | [b0] => base64Chunk [b0]
  | [b0, b1] => base64Chunk [b0, b1]
  | b0 :: b1 :: b2 :: rest => base64Chunk [b0, b1, b2] ++ base64EncodeList rest

/-- `base64.standard_b64encode(data).decode("utf-8")`. -/
def base64Encode (bytes : List Nat) : String := String.mk (base64EncodeList bytes)

example : base64Encode [77, 97, 110] = "TWFu" := by decide
example : base64Encode [77, 97] = "TWE=" := by decide
example : base64Encode [77] = "TQ==" := by decide

instance {ε α : Type} [DecidableEq ε] [DecidableEq α] : DecidableEq (Except ε α) :=
  fun a b =>
    match a, b with
    | .ok x, .ok y =>
      if h : x = y then .isTrue (by rw [h]) else .isFalse (by simp [h])
    | .error x, .error y =>
      if h : x = y then .isTrue (by rw [h]) else .isFalse (by simp [h])
    | .ok _, .error _ => .isFalse (by simp)
    | .error _, .ok _ => .isFalse (by simp)

/-- The two exceptions `encode_image` raises. -/
inductive EncodeError where
  | fileNotFound (image_path : String)
  | unsupportedType (ext : String)
deriving DecidableEq

/-- Python's `str.lower()`, character by character (the extensions at stake
are ASCII). -/
def strToLower (s : String) : String := String.mk (s.toList.map Char.toLower)

/-- The fixed media-type table of `encode_image`. -/
def media_types : List (String × String) :=
  [(".jpg", "image/jpeg"), (".jpeg", "image/jpeg"), (".png", "image/png"),
    (".gif", "image/gif"), (".webp", "image/webp")]

/-- `encode_image(image_path)` from `bedrock_vision.py`: existence check, then
lowercased-suffix lookup in the fixed table, then read and base64-encode. -/
def encode_image (fs : FileSystem) (image_path : String) :
    Except EncodeError (String × String) :=
  match fs image_path with
  | none => .error (.fileNotFound image_path)
  | some data =>
    let extension := strToLower (pathSuffix image_path)
    match media_types.lookup extension with
    | none => .error (.unsupportedType extension)
    | some media_type => .ok (base64Encode data, media_type)

example :
    encode_image (fun p => if p = "photo.png" then some [77, 97, 110] else none)
      "photo.png" = .ok ("TWFu", "image/png") := by decide

example :
    encode_image (fun p => if p = "file.bmp" then some [0] else none)
      "file.bmp" = .error (.unsupportedType ".bmp") := by decide

/-- Diagnostic text of the exceptions raised by `encode_image`, as printed by
the vision script's error handler. -/
def encodeErrorMessage : EncodeError → String
  | .fileNotFound image_path => "Image file not found: " ++ image_path
  | .unsupportedType extension => "Unsupported image type: " ++ extension

/-- The remote response fields the vision script reads. -/
structure VisionResponse where
  text : String
  input_tokens : Nat
  output_tokens : Nat

/-- Observable trace of one run of the vision script's `main`: printed lines
in order, how many network requests were issued, and the exit status. -/
structure VisionTrace where
  printed : List String
  networkCalls : Nat
  exitCode : Nat

/-- `main()` of `bedrock_vision.py`. `argv` is `sys.argv` (program name
included); `respond` is what `client.messages.create` answers to the encoded
image and media type. -/
def vision_main (fs : FileSystem) (respond : String → String → VisionResponse) :
    List String → VisionTrace
  | _prog :: image_path :: _ =>
    match encode_image fs image_path with
    | .error e =>
      ⟨["🔷 AWS Bedrock - Vision/Image Processing\n",
         "Loading image: " ++ image_path,
         "❌ Error: " ++ encodeErrorMessage e], 0, 1⟩
    | .ok (image_data, media_type) =>
      let response := respond image_data media_type
      ⟨["🔷 AWS Bedrock - Vision/Image Processing\n",
         "Loading image: " ++ image_path,
         "Analyzing image with Claude...\n",
         "✅ Analysis:\n",
         response.text,
         "\n📊 Token Usage:",
         "  Input tokens: " ++ toString response.input_tokens,
         "  Output tokens: " ++ toString response.output_tokens], 1, 0⟩
  | _ =>
    ⟨["Usage: python bedrock_vision.py <path_to_image>",
       "\nExample: python bedrock_vision.py /path/to/image.png"], 0, 1⟩

/-! ## `bedrock_conversation.py` -/

/-- One conversation turn, as the dicts the script builds. -/
structure Message where
  role : String
  content : String
deriving DecidableEq

/-- The mutable state of a `ChatSession` (the client is passed separately to
`chat` as the `respond` function). -/
structure ChatSession where
  conversation_history : List Message
  model : String
  system_prompt : String
deriving DecidableEq

/-- `ChatSession.__init__`: empty history, fixed model and system prompt. -/
def ChatSession.init : ChatSession where
  conversation_history := []
  model := "global.anthropic.claude-sonnet-4-5-20250929-v1:0"
  system_prompt := "You are a helpful assistant. Be concise and clear in your responses."

/-- `ChatSession.chat(user_message)`. `respond model max_tokens system msgs`
models `client.messages.create(...)`, returning the assistant text
`response.content[0].text` or raising. Returns the updated session together
with the returned text or the propagated exception. -/
def ChatSession.chat {ε : Type} (s : ChatSession)
    (respond : String → Nat → String → List Message → Except ε String)
    (user_message : String) : ChatSession × Except ε String :=
  let hist := s.conversation_history ++ [⟨"user", user_message⟩]
  match respond s.model 512 s.system_prompt hist with
  | .error e => ({ s with conversation_history := hist }, .error e)
  | .ok assistant_message =>
    ({ s with conversation_history := hist ++ [⟨"assistant", assistant_message⟩] },
      .ok assistant_message)

/-- Run `chat` once per user message in order, keeping the final session. -/
def chatAll {ε : Type} (respond : String → Nat → String → List Message → Except ε String) :
    ChatSession → List String → ChatSession
  | s, [] => s
  | s, m :: ms => chatAll respond (s.chat respond m).1 ms

/-- `tt` iff the list alternates user/assistant pairs starting with user
(hence also has even length). -/
def alternatesUA : List Message → Bool
  | [] => true
  | [_] => false
  | u :: a :: rest => u.role == "user" && a.role == "assistant" && alternatesUA rest

/-! ## Streaming scripts (`bedrock_streaming.py`, `vertex_ai_streaming.py`) -/

/-- Events delivered on the stream: text fragments interleaved with other
event kinds (message start, content block boundaries, and so on). -/
inductive StreamEvent where
  | textDelta (text : String)
  | otherEvent

/-- The console contents written by the consumer loop
`for text in stream.text_stream: print(text, end="")`: each fragment is
appended to the output in arrival order. -/
def consumeStream (acc : String) : List StreamEvent → String
  | [] => acc
  | .textDelta t :: rest => consumeStream (acc ++ t) rest
  | .otherEvent :: rest => consumeStream acc rest

/-- Modelled from the spec: `stream.get_final_message()` is SDK code outside
this repository; per the spec the aggregate final response contains the full
text, the concatenation of every text fragment the stream delivered. -/
def get_final_message_text : List StreamEvent → String
  | [] => ""
  | .textDelta t :: rest => t ++ get_final_message_text rest
  | .otherEvent :: rest => get_final_message_text rest

/-! ## Helper lemmas -/

theorem callWithRetryAux_ok {α : Type} (behavior : Nat → Outcome α)
    (maxRetries attempt remaining : Nat) (r : α) (hb : behavior attempt = .ok r) :
    callWithRetryAux behavior maxRetries attempt (remaining + 1) = ⟨[], 1, .ok r⟩ := by
  simp [callWithRetryAux, hb]

theorem callWithRetryAux_rateLimit_retry {α : Type} (behavior : Nat → Outcome α)
    (maxRetries attempt remaining : Nat) (hb : behavior attempt = .err .rateLimit)
    (hlt : attempt < maxRetries - 1) :
    callWithRetryAux behavior maxRetries attempt (remaining + 1) =
      ⟨2 ^ attempt :: (callWithRetryAux behavior maxRetries (attempt + 1) remaining).sleeps,
        (callWithRetryAux behavior maxRetries (attempt + 1) remaining).attempts + 1,
        (callWithRetryAux behavior maxRetries (attempt + 1) remaining).result⟩ := by
  rw [callWithRetryAux, hb]
  simp [hlt]

theorem callWithRetryAux_rateLimit_last {α : Type} (behavior : Nat → Outcome α)
    (maxRetries attempt remaining : Nat) (hb : behavior attempt = .err .rateLimit)
    (hge : ¬ attempt < maxRetries - 1) :
    callWithRetryAux behavior maxRetries attempt (remaining + 1) =
      ⟨[], 1, .error (.raised .rateLimit)⟩ := by
  rw [callWithRetryAux, hb]
  simp [hge]

theorem callWithRetryAux_throttle_retry {α : Type} (behavior : Nat → Outcome α)
    (maxRetries attempt remaining : Nat) (msg : String)
    (hb : behavior attempt = .err (.apiError msg))
    (hmark : containsThrottlingMarker msg = true) (hlt : attempt < maxRetries - 1) :
    callWithRetryAux behavior maxRetries attempt (remaining + 1) =
      ⟨2 ^ attempt :: (callWithRetryAux behavior maxRetries (attempt + 1) remaining).sleeps,
        (callWithRetryAux behavior maxRetries (attempt + 1) remaining).attempts + 1,
        (callWithRetryAux behavior maxRetries (attempt + 1) remaining).result⟩ := by
  rw [callWithRetryAux, hb]
  simp [hmark, hlt]

theorem callWithRetryAux_throttle_last {α : Type} (behavior : Nat → Outcome α)
    (maxRetries attempt remaining : Nat) (msg : String)
    (hb : behavior attempt = .err (.apiError msg))
    (hmark : containsThrottlingMarker msg = true) (hge : ¬ attempt < maxRetries - 1) :
    callWithRetryAux behavior maxRetries attempt (remaining + 1) =
      ⟨[], 1, .error (.raised (.apiError msg))⟩ := by
  rw [callWithRetryAux, hb]
  simp [hmark, hge]

theorem callWithRetryAux_api_fatal {α : Type} (behavior : Nat → Outcome α)
    (maxRetries attempt remaining : Nat) (msg : String)
    (hb : behavior attempt = .err (.apiError msg))
    (hmark : containsThrottlingMarker msg = false) :
    callWithRetryAux behavior maxRetries attempt (remaining + 1) =
      ⟨[], 1, .error (.raised (.apiError msg))⟩ := by
  rw [callWithRetryAux, hb]
  simp [hmark]

theorem callWithRetryAux_other {α : Type} (behavior : Nat → Outcome α)
    (maxRetries attempt remaining : Nat) (hb : behavior attempt = .err .other) :
    callWithRetryAux behavior maxRetries attempt (remaining + 1) =
      ⟨[], 1, .error (.raised .other)⟩ := by
  rw [callWithRetryAux, hb]

/-- Shifting the exponent base: the sleep list one attempt later, with the
first sleep prepended, is the sleep list from the earlier attempt. -/
theorem sleepSchedule_shift (attempt r : Nat) :
    (2 : Nat) ^ attempt :: (List.range r).map (fun i => 2 ^ (attempt + 1 + i)) =
      (List.range (r + 1)).map (fun i => 2 ^ (attempt + i)) := by
  rw [List.range_succ_eq_map, List.map_cons, List.map_map]
  refine congrArg₂ List.cons (by rw [Nat.add_zero]) ?_
  apply List.map_congr_left
  intro i _
  simp only [Function.comp]
  congr 1
  omega

/-- When every attempt raises `RateLimitError`, the loop starting at `attempt`
with `remaining ≥ 1` iterations left sleeps `2 ^ (attempt + i)` for
`i = 0 .. remaining - 2`, makes `remaining` attempts, and re-raises. -/
theorem callWithRetryAux_allRateLimit {α : Type} (behavior : Nat → Outcome α)
    (maxRetries : Nat) (hrl : ∀ k, behavior k = .err .rateLimit) :
    ∀ remaining, ∀ attempt, attempt + remaining = maxRetries → 1 ≤ remaining →
      callWithRetryAux behavior maxRetries attempt remaining =
        ⟨(List.range (remaining - 1)).map (fun i => 2 ^ (attempt + i)), remaining,
          .error (.raised .rateLimit)⟩ := by
  intro remaining
  induction remaining with
  | zero => intro attempt _ h1; omega
  | succ r ih =>
    intro attempt heq _
    match r, ih with
    | 0, _ =>
      have hlast : ¬ attempt < maxRetries - 1 := by omega
      rw [callWithRetryAux_rateLimit_last behavior maxRetries attempt 0 (hrl attempt) hlast]
      simp
    | r' + 1, ih =>
      have hmore : attempt < maxRetries - 1 := by omega
      have hrest := ih (attempt + 1) (by omega) (by omega)
      rw [callWithRetryAux_rateLimit_retry behavior maxRetries attempt (r' + 1)
        (hrl attempt) hmore, hrest]
      simp only [RetryTrace.mk.injEq, Nat.add_sub_cancel]
      exact ⟨sleepSchedule_shift attempt r', by trivial, by trivial⟩

/-- When every attempt raises an `APIError` whose message carries the
throttling marker, the loop behaves exactly as in the rate-limit case. -/
theorem callWithRetryAux_allThrottling {α : Type} (behavior : Nat → Outcome α)
    (maxRetries : Nat) (msg : String) (hmark : containsThrottlingMarker msg = true)
    (hb : ∀ k, behavior k = .err (.apiError msg)) :
    ∀ remaining, ∀ attempt, attempt + remaining = maxRetries → 1 ≤ remaining →
      callWithRetryAux behavior maxRetries attempt remaining =
        ⟨(List.range (remaining - 1)).map (fun i => 2 ^ (attempt + i)), remaining,
          .error (.raised (.apiError msg))⟩ := by
  intro remaining
  induction remaining with
  | zero => intro attempt _ h1; omega
  | succ r ih =>
    intro attempt heq _
    match r, ih with
    | 0, _ =>
      have hlast : ¬ attempt < maxRetries - 1 := by omega
      rw [callWithRetryAux_throttle_last behavior maxRetries attempt 0 msg
        (hb attempt) hmark hlast]
      simp
    | r' + 1, ih =>
      have hmore : attempt < maxRetries - 1 := by omega
      have hrest := ih (attempt + 1) (by omega) (by omega)
      rw [callWithRetryAux_throttle_retry behavior maxRetries attempt (r' + 1) msg
        (hb attempt) hmark hmore, hrest]
      simp only [RetryTrace.mk.injEq, Nat.add_sub_cancel]
      exact ⟨sleepSchedule_shift attempt r', by trivial, by trivial⟩

/-! ## Claim theorems -/

/-- C1: for every `max_retries ≥ 1`, if the remote call raises a rate-limit
error on every attempt, `call_with_retry` performs exactly `max_retries`
attempts, sleeps exactly `2 ^ k` seconds before the (k+1)-th retry for
`k = 0 .. max_retries - 2`, performs no sleep after the final attempt, and
fails with the underlying rate-limit error; and with `max_retries = 3`,
rate-limit errors on attempts 1 and 2 and success on attempt 3, it sleeps
exactly twice, 1s then 2s, and returns the successful response. -/
theorem call_with_retry_rate_limit_backoff {α : Type} (behavior : Nat → Outcome α)
    (max_retries : Nat) (hm : 1 ≤ max_retries)
    (hrl : ∀ k, behavior k = .err .rateLimit) :
    call_with_retry behavior max_retries =
      ⟨(List.range (max_retries - 1)).map (fun k => 2 ^ k), max_retries,
        .error (.raised .rateLimit)⟩
    ∧ ∀ (r : α),
        call_with_retry (fun k => if k < 2 then .err .rateLimit else .ok r) 3 =
          ⟨[1, 2], 3, .ok r⟩ := by
  constructor
  · rw [call_with_retry,
      callWithRetryAux_allRateLimit behavior max_retries hrl max_retries 0 (by omega) hm]
    simp
  · intro r
    rfl

theorem call_with_retry_rate_limit_backoff_witness :
    (1 ≤ 3 ∧ ∀ k : Nat,
        (fun _ : Nat => Outcome.err (α := Nat) Err.rateLimit) k =
          Outcome.err Err.rateLimit)
    ∧ (call_with_retry (fun _ : Nat => Outcome.err (α := Nat) Err.rateLimit) 3 =
        ⟨(List.range (3 - 1)).map (fun k => 2 ^ k), 3, .error (.raised .rateLimit)⟩
      ∧ ∀ (r : Nat),
          call_with_retry (fun k => if k < 2 then .err .rateLimit else .ok r) 3 =
            ⟨[1, 2], 3, .ok r⟩) :=
  ⟨⟨by decide, fun _ => rfl⟩,
    call_with_retry_rate_limit_backoff (fun _ : Nat => Outcome.err Err.rateLimit) 3
      (by decide) (fun _ => rfl)⟩

/-- C5 counterexample: with throttling-marked API errors on every attempt and
`max_retries = 3`, the code sleeps twice (1s then 2s) and makes three
attempts — the backoff in response to throttling-marked API errors is not
limited to a single occurrence per call. -/
theorem throttling_backoff_not_single_cex :
    (call_with_retry
        (fun _ => Outcome.err (α := Nat)
          (Err.apiError "ThrottlingException: rate exceeded")) 3).sleeps = [1, 2]
    ∧ (call_with_retry
        (fun _ => Outcome.err (α := Nat)
          (Err.apiError "ThrottlingException: rate exceeded")) 3).attempts = 3
    ∧ ¬ (call_with_retry
        (fun _ => Outcome.err (α := Nat)
          (Err.apiError "ThrottlingException: rate exceeded")) 3).sleeps.length ≤ 1 := by
  refine ⟨rfl, rfl, by decide⟩

/-- C5 amended: a throttling-marked API error is handled with the same
backoff as a rate-limit error on each attempt that is not the last: one
sleep-then-retry per such attempt, hence up to `max_retries - 1` backoffs per
call (not at most one); with throttling-marked errors on every attempt the
call sleeps `2 ^ k` for `k = 0 .. max_retries - 2`, makes `max_retries`
attempts, and re-raises the API error. -/
theorem throttling_backoff_each_attempt {α : Type} (behavior : Nat → Outcome α)
    (max_retries : Nat) (msg : String) (hm : 1 ≤ max_retries)
    (hmark : containsThrottlingMarker msg = true)
    (hb : ∀ k, behavior k = .err (.apiError msg)) :
    call_with_retry behavior max_retries =
      ⟨(List.range (max_retries - 1)).map (fun k => 2 ^ k), max_retries,
        .error (.raised (.apiError msg))⟩
    ∧ ∀ attempt r, attempt < max_retries - 1 →
        callWithRetryAux behavior max_retries attempt (r + 1) =
          ⟨2 ^ attempt ::
              (callWithRetryAux behavior max_retries (attempt + 1) r).sleeps,
            (callWithRetryAux behavior max_retries (attempt + 1) r).attempts + 1,
            (callWithRetryAux behavior max_retries (attempt + 1) r).result⟩ := by
  constructor
  · rw [call_with_retry,
      callWithRetryAux_allThrottling behavior max_retries msg hmark hb max_retries 0
        (by omega) hm]
    simp
  · intro attempt r hlt
    exact callWithRetryAux_throttle_retry behavior max_retries attempt r msg
      (hb attempt) hmark hlt

theorem throttling_backoff_each_attempt_witness :
    (1 ≤ 3
      ∧ containsThrottlingMarker "ThrottlingException: rate exceeded" = true
      ∧ ∀ k : Nat,
          (fun _ : Nat => Outcome.err (α := Nat)
            (Err.apiError "ThrottlingException: rate exceeded")) k =
            Outcome.err (Err.apiError "ThrottlingException: rate exceeded"))
    ∧ (call_with_retry
          (fun _ : Nat => Outcome.err (α := Nat)
            (Err.apiError "ThrottlingException: rate exceeded")) 3 =
        ⟨(List.range (3 - 1)).map (fun k => 2 ^ k), 3,
          .error (.raised (.apiError "ThrottlingException: rate exceeded"))⟩
      ∧ ∀ attempt r, attempt < 3 - 1 →
          callWithRetryAux
              (fun _ : Nat => Outcome.err (α := Nat)
                (Err.apiError "ThrottlingException: rate exceeded")) 3 attempt (r + 1) =
            ⟨2 ^ attempt ::
                (callWithRetryAux
                  (fun _ : Nat => Outcome.err (α := Nat)
                    (Err.apiError "ThrottlingException: rate exceeded")) 3 (attempt + 1) r).sleeps,
              (callWithRetryAux
                (fun _ : Nat => Outcome.err (α := Nat)
                  (Err.apiError "ThrottlingException: rate exceeded")) 3 (attempt + 1) r).attempts + 1,
              (callWithRetryAux
                (fun _ : Nat => Outcome.err (α := Nat)
                  (Err.apiError "ThrottlingException: rate exceeded")) 3 (attempt + 1) r).result⟩) :=
  ⟨⟨by decide, by decide, fun _ => rfl⟩,
    throttling_backoff_each_attempt
      (fun _ : Nat => Outcome.err (Err.apiError "ThrottlingException: rate exceeded")) 3
      "ThrottlingException: rate exceeded" (by decide) (by decide) (fun _ => rfl)⟩

/-- C6: an error that is neither a rate-limit error nor an API error whose
message carries the throttling marker is re-raised immediately: from any
loop state with at least one iteration left, no sleep occurs and no further
remote attempt is made; in particular `call_with_retry` makes exactly one
attempt when the first attempt raises such an error. -/
theorem fatal_error_aborts_immediately {α : Type} (behavior : Nat → Outcome α)
    (maxRetries attempt remaining : Nat) (hrem : 1 ≤ remaining) (e : Err)
    (he : behavior attempt = .err e) (hnotRL : e ≠ .rateLimit)
    (hnotThrottle : ∀ msg, e = .apiError msg → containsThrottlingMarker msg = false) :
    callWithRetryAux behavior maxRetries attempt remaining = ⟨[], 1, .error (.raised e)⟩
    ∧ (1 ≤ maxRetries → attempt = 0 → remaining = maxRetries →
        call_with_retry behavior maxRetries = ⟨[], 1, .error (.raised e)⟩) := by
  obtain ⟨r, rfl⟩ : ∃ r, remaining = r + 1 := ⟨remaining - 1, by omega⟩
  have hstep : callWithRetryAux behavior maxRetries attempt (r + 1) =
      ⟨[], 1, .error (.raised e)⟩ := by
    match e, hnotRL, hnotThrottle with
    | .apiError msg, _, hnotThrottle =>
      exact callWithRetryAux_api_fatal behavior maxRetries attempt r msg he
        (hnotThrottle msg rfl)
    | .other, _, _ =>
      exact callWithRetryAux_other behavior maxRetries attempt r he
  refine ⟨hstep, fun _ h0 hrm => ?_⟩
  subst h0
  subst hrm
  rw [call_with_retry]
  exact hstep

theorem fatal_error_aborts_immediately_witness :
    (1 ≤ 3
      ∧ (fun _ : Nat => Outcome.err (α := Nat) (Err.apiError "boom")) 0 =
          Outcome.err (Err.apiError "boom")
      ∧ Err.apiError "boom" ≠ Err.rateLimit
      ∧ ∀ msg, Err.apiError "boom" = Err.apiError msg →
          containsThrottlingMarker msg = false)
    ∧ (callWithRetryAux (fun _ : Nat => Outcome.err (α := Nat) (Err.apiError "boom"))
          3 0 3 = ⟨[], 1, .error (.raised (.apiError "boom"))⟩
      ∧ (1 ≤ 3 → 0 = 0 → 3 = 3 →
          call_with_retry (fun _ : Nat => Outcome.err (α := Nat) (Err.apiError "boom")) 3 =
            ⟨[], 1, .error (.raised (.apiError "boom"))⟩)) :=
  ⟨⟨by decide, rfl, by decide, fun msg h => by cases h; decide⟩,
    fatal_error_aborts_immediately
      (fun _ : Nat => Outcome.err (Err.apiError "boom")) 3 0 3 (by decide)
      (Err.apiError "boom") rfl (by decide) (fun msg h => by cases h; decide)⟩

/-- C2: for every existing file whose lowercased suffix is a supported
extension, `encode_image` returns the standard base64 encoding of the full
contents paired with the matching media type: jpg/jpeg ↦ image/jpeg,
png ↦ image/png, gif ↦ image/gif, webp ↦ image/webp. -/
theorem encode_image_supported_media_types (fs : FileSystem) (image_path : String)
    (data : List Nat) (h : fs image_path = some data) :
    (strToLower (pathSuffix image_path) = ".jpg" →
      encode_image fs image_path = .ok (base64Encode data, "image/jpeg"))
    ∧ (strToLower (pathSuffix image_path) = ".jpeg" →
      encode_image fs image_path = .ok (base64Encode data, "image/jpeg"))
    ∧ (strToLower (pathSuffix image_path) = ".png" →
      encode_image fs image_path = .ok (base64Encode data, "image/png"))
    ∧ (strToLower (pathSuffix image_path) = ".gif" →
      encode_image fs image_path = .ok (base64Encode data, "image/gif"))
    ∧ (strToLower (pathSuffix image_path) = ".webp" →
      encode_image fs image_path = .ok (base64Encode data, "image/webp")) := by
  refine ⟨?_, ?_, ?_, ?_, ?_⟩ <;> intro hext <;>
    simp [encode_image, h, hext, media_types, List.lookup]

theorem encode_image_supported_media_types_witness :
    ((fun p => if p = "photo.png" then some [77, 97, 110] else none :
        FileSystem) "photo.png" = some [77, 97, 110])
    ∧ (strToLower (pathSuffix "photo.png") = ".png" →
        encode_image
          (fun p => if p = "photo.png" then some [77, 97, 110] else none)
          "photo.png" = .ok (base64Encode [77, 97, 110], "image/png")) :=
  ⟨by decide,
    (encode_image_supported_media_types
      (fun p => if p = "photo.png" then some [77, 97, 110] else none)
      "photo.png" [77, 97, 110] (by decide)).2.2.1⟩

/-- C3: `encode_image` fails with the not-found error when the path does not
exist, and with the unsupported-type error when the path exists but its
lowercased suffix is outside the fixed table; in both cases the vision
script's `main` issues no network request. -/
theorem encode_image_failure_modes (fs : FileSystem) (image_path : String) :
    (fs image_path = none →
      encode_image fs image_path = .error (.fileNotFound image_path))
    ∧ (∀ data, fs image_path = some data →
        media_types.lookup (strToLower (pathSuffix image_path)) = none →
        encode_image fs image_path =
          .error (.unsupportedType (strToLower (pathSuffix image_path))))
    ∧ (∀ (respond : String → String → VisionResponse) (e : EncodeError),
        encode_image fs image_path = .error e →
        ∀ prog rest,
          (vision_main fs respond (prog :: image_path :: rest)).networkCalls = 0) := by
  refine ⟨?_, ?_, ?_⟩
  · intro h
    simp [encode_image, h]
  · intro data h hlook
    simp [encode_image, h, hlook]
  · intro respond e he prog rest
    simp [vision_main, he]

theorem encode_image_failure_modes_witness :
    ((fun p => if p = "file.bmp" then some [0] else none :
        FileSystem) "missing.png" = none
      ∧ encode_image (fun p => if p = "file.bmp" then some [0] else none)
          "missing.png" = .error (.fileNotFound "missing.png"))
    ∧ ((fun p => if p = "file.bmp" then some [0] else none :
        FileSystem) "file.bmp" = some [0]
      ∧ media_types.lookup (strToLower (pathSuffix "file.bmp")) = none
      ∧ encode_image (fun p => if p = "file.bmp" then some [0] else none)
          "file.bmp" = .error (.unsupportedType (strToLower (pathSuffix "file.bmp"))))
    ∧ (encode_image (fun p => if p = "file.bmp" then some [0] else none)
          "file.bmp" = .error (.unsupportedType ".bmp")
      ∧ (vision_main (fun p => if p = "file.bmp" then some [0] else none)
          (fun _ _ => ⟨"", 0, 0⟩)
          ("prog" :: "file.bmp" :: [])).networkCalls = 0) :=
  ⟨⟨by decide,
      (encode_image_failure_modes
        (fun p => if p = "file.bmp" then some [0] else none) "missing.png").1
        (by decide)⟩,
    ⟨by decide, by decide,
      (encode_image_failure_modes
        (fun p => if p = "file.bmp" then some [0] else none) "file.bmp").2.1
        [0] (by decide) (by decide)⟩,
    ⟨by decide,
      (encode_image_failure_modes
        (fun p => if p = "file.bmp" then some [0] else none) "file.bmp").2.2
        (fun _ _ => ⟨"", 0, 0⟩) (.unsupportedType ".bmp") (by decide) "prog" []⟩⟩

/-- C10: the suffix is lowercased before the media-type lookup, so the
result of `encode_image` depends only on the lowercased suffix (two existing
files with the same contents and the same lowercased suffix encode
identically), and a path ending in `.PNG` yields `image/png` just like its
lowercase form. -/
theorem encode_image_suffix_case_insensitive (fs₁ fs₂ : FileSystem)
    (p₁ p₂ : String) (data : List Nat) (h₁ : fs₁ p₁ = some data)
    (h₂ : fs₂ p₂ = some data)
    (hsuf : strToLower (pathSuffix p₁) = strToLower (pathSuffix p₂)) :
    encode_image fs₁ p₁ = encode_image fs₂ p₂
    ∧ (∀ (fs : FileSystem) (d : List Nat), fs "photo.PNG" = some d →
        encode_image fs "photo.PNG" = .ok (base64Encode d, "image/png")) := by
  constructor
  · simp only [encode_image, h₁, h₂, hsuf]
  · intro fs d h
    have hext : strToLower (pathSuffix "photo.PNG") = ".png" := by decide
    simp [encode_image, h, hext, media_types, List.lookup]

theorem encode_image_suffix_case_insensitive_witness :
    ((fun p => if p = "a.PNG" then some [77] else none : FileSystem) "a.PNG" =
        some [77]
      ∧ (fun p => if p = "b.png" then some [77] else none : FileSystem) "b.png" =
        some [77]
      ∧ strToLower (pathSuffix "a.PNG") = strToLower (pathSuffix "b.png"))
    ∧ (encode_image (fun p => if p = "a.PNG" then some [77] else none) "a.PNG" =
        encode_image (fun p => if p = "b.png" then some [77] else none) "b.png"
      ∧ ∀ (fs : FileSystem) (d : List Nat), fs "photo.PNG" = some d →
          encode_image fs "photo.PNG" = .ok (base64Encode d, "image/png")) :=
  ⟨⟨by decide, by decide, by decide⟩,
    encode_image_suffix_case_insensitive
      (fun p => if p = "a.PNG" then some [77] else none)
      (fun p => if p = "b.png" then some [77] else none)
      "a.PNG" "b.png" [77] (by decide) (by decide) (by decide)⟩

theorem alternatesUA_append :
    ∀ (l₁ l₂ : List Message), alternatesUA l₁ = true → alternatesUA l₂ = true →
      alternatesUA (l₁ ++ l₂) = true
  | [], _, _, h₂ => h₂
  | [_], _, h₁, _ => by simp [alternatesUA] at h₁
  | u :: a :: rest, l₂, h₁, h₂ => by
    simp only [alternatesUA, Bool.and_eq_true, beq_iff_eq] at h₁
    simp only [List.cons_append, alternatesUA, Bool.and_eq_true, beq_iff_eq]
    exact ⟨⟨h₁.1.1, h₁.1.2⟩, alternatesUA_append rest l₂ h₁.2 h₂⟩

/-- When the remote call always succeeds, running `chat` over a list of user
messages adds two history entries per message and preserves the
user/assistant alternation. -/
theorem chatAll_ok_invariant {ε : Type}
    (respond : String → Nat → String → List Message → Except ε String)
    (hok : ∀ mdl mt sys hist, ∃ t, respond mdl mt sys hist = .ok t) :
    ∀ (msgs : List String) (s : ChatSession),
      alternatesUA s.conversation_history = true →
      (chatAll respond s msgs).conversation_history.length =
          s.conversation_history.length + 2 * msgs.length
      ∧ alternatesUA (chatAll respond s msgs).conversation_history = true := by
  intro msgs
  induction msgs with
  | nil => intro s halt; simp [chatAll, halt]
  | cons m ms ih =>
    intro s halt
    obtain ⟨t, ht⟩ := hok s.model 512 s.system_prompt
      (s.conversation_history ++ [⟨"user", m⟩])
    have hchat : (s.chat respond m).1 =
        { s with conversation_history :=
            s.conversation_history ++ [⟨"user", m⟩, ⟨"assistant", t⟩] } := by
      simp [ChatSession.chat, ht]
    have halt' : alternatesUA
        (s.conversation_history ++ [⟨"user", m⟩, ⟨"assistant", t⟩]) = true :=
      alternatesUA_append s.conversation_history [⟨"user", m⟩, ⟨"assistant", t⟩]
        halt (by simp [alternatesUA])
    have := ih (s.chat respond m).1 (by rw [hchat]; exact halt')
    rw [hchat] at this
    simp only [List.length_append] at this
    obtain ⟨hlen, haltf⟩ := this
    rw [chatAll, hchat]
    refine ⟨?_, haltf⟩
    rw [hlen]
    simp only [List.length_append, List.length_cons, List.length_nil]
    omega

/-- A remote call that always answers with the text `"hello"`. -/
def respondOkHello : String → Nat → String → List Message → Except Unit String :=
  fun _ _ _ _ => .ok "hello"

/-- A remote call that always raises. -/
def respondErr : String → Nat → String → List Message → Except Unit String :=
  fun _ _ _ _ => .error ()

/-- C4: after `n` successful `chat` calls on a fresh `ChatSession` the
history has length exactly `2 n` and strictly alternates user/assistant
starting with user; moreover each successful `chat` call appends exactly the
user message then the assistant message to the existing history and returns
the content of that assistant message. -/
theorem chat_history_growth {ε : Type}
    (respond : String → Nat → String → List Message → Except ε String)
    (hok : ∀ mdl mt sys hist, ∃ t, respond mdl mt sys hist = .ok t)
    (msgs : List String) :
    ((chatAll respond ChatSession.init msgs).conversation_history.length =
        2 * msgs.length
      ∧ alternatesUA
          (chatAll respond ChatSession.init msgs).conversation_history = true)
    ∧ (∀ (s : ChatSession) (m t : String),
        respond s.model 512 s.system_prompt
            (s.conversation_history ++ [⟨"user", m⟩]) = .ok t →
        (s.chat respond m).1.conversation_history =
            s.conversation_history ++ [⟨"user", m⟩, ⟨"assistant", t⟩]
          ∧ (s.chat respond m).2 = .ok t) := by
  constructor
  · have := chatAll_ok_invariant respond hok msgs ChatSession.init (by rfl)
    simpa [ChatSession.init] using this
  · intro s m t h
    constructor
    · simp [ChatSession.chat, h]
    · simp [ChatSession.chat, h]

theorem chat_history_growth_witness :
    ((∀ mdl mt sys hist, ∃ t, respondOkHello mdl mt sys hist = Except.ok t)
      ∧ respondOkHello "m" 512 "s" [Message.mk "user" "hi"] = Except.ok "hello")
    ∧ ((chatAll respondOkHello
          ChatSession.init ["hi", "there"]).conversation_history.length = 2 * 2
      ∧ alternatesUA
          (chatAll respondOkHello
            ChatSession.init ["hi", "there"]).conversation_history = true) :=
  ⟨⟨fun _ _ _ _ => ⟨"hello", rfl⟩, rfl⟩,
    (chat_history_growth respondOkHello
      (fun _ _ _ _ => ⟨"hello", rfl⟩) ["hi", "there"]).1⟩

/-- C9: `chat` is not atomic on error: when the remote call raises, the
exception propagates, and the history — of length `2 n` beforehand — is left
with length `2 n + 1`, ending with the just-appended user message and no
matching assistant message. -/
theorem chat_error_leaves_dangling_user {ε : Type}
    (respond : String → Nat → String → List Message → Except ε String)
    (s : ChatSession) (m : String) (e : ε) (n : Nat)
    (hlen : s.conversation_history.length = 2 * n)
    (herr : respond s.model 512 s.system_prompt
      (s.conversation_history ++ [⟨"user", m⟩]) = .error e) :
    (s.chat respond m).2 = .error e
    ∧ (s.chat respond m).1.conversation_history =
        s.conversation_history ++ [⟨"user", m⟩]
    ∧ (s.chat respond m).1.conversation_history.length = 2 * n + 1
    ∧ (s.chat respond m).1.conversation_history.getLast? = some ⟨"user", m⟩ := by
  refine ⟨?_, ?_, ?_, ?_⟩
  · simp [ChatSession.chat, herr]
  · simp [ChatSession.chat, herr]
  · simp [ChatSession.chat, herr, hlen]
  · simp [ChatSession.chat, herr]

theorem chat_error_leaves_dangling_user_witness :
    (ChatSession.init.conversation_history.length = 2 * 0
      ∧ respondErr ChatSession.init.model 512 ChatSession.init.system_prompt
          (ChatSession.init.conversation_history ++ [Message.mk "user" "hi"]) =
        Except.error ())
    ∧ ((ChatSession.init.chat respondErr "hi").2 = Except.error ()
      ∧ (ChatSession.init.chat respondErr "hi").1.conversation_history =
        ChatSession.init.conversation_history ++ [Message.mk "user" "hi"]
      ∧ (ChatSession.init.chat respondErr "hi").1.conversation_history.length =
        2 * 0 + 1
      ∧ (ChatSession.init.chat respondErr "hi").1.conversation_history.getLast? =
        some (Message.mk "user" "hi")) :=
  ⟨⟨rfl, rfl⟩,
    chat_error_leaves_dangling_user respondErr ChatSession.init "hi" () 0 rfl rfl⟩

/-- Generalized accumulator form of the streaming consumer. -/
theorem consumeStream_acc (events : List StreamEvent) :
    ∀ acc, consumeStream acc events = acc ++ get_final_message_text events := by
  induction events with
  | nil => intro acc; simp [consumeStream, get_final_message_text]
  | cons ev rest ih =>
    intro acc
    cases ev with
    | textDelta t =>
      simp [consumeStream, get_final_message_text, ih, String.append_assoc]
    | otherEvent =>
      simp [consumeStream, get_final_message_text, ih]

/-- C7: for every finite sequence of stream events, the console contents the
consumer loop writes — every text fragment, in arrival order — equal the
full text of the aggregate final response retrieved after the stream is
exhausted. -/
theorem streaming_concat_eq_final (events : List StreamEvent) :
    consumeStream "" events = get_final_message_text events := by
  have := consumeStream_acc events ""
  simpa using this

/-- C8: the vision script's `main` exits with status 1, prints a diagnostic,
and issues no network request, both when the positional image-path argument
is missing and when `encode_image` fails. -/
theorem vision_main_failure_exits (fs : FileSystem)
    (respond : String → String → VisionResponse) :
    (∀ argv, argv.length < 2 →
      vision_main fs respond argv =
        ⟨["Usage: python bedrock_vision.py <path_to_image>",
           "\nExample: python bedrock_vision.py /path/to/image.png"], 0, 1⟩)
    ∧ (∀ prog image_path rest (e : EncodeError),
        encode_image fs image_path = .error e →
        (vision_main fs respond (prog :: image_path :: rest)).exitCode = 1
        ∧ (vision_main fs respond (prog :: image_path :: rest)).networkCalls = 0
        ∧ ("❌ Error: " ++ encodeErrorMessage e) ∈
            (vision_main fs respond (prog :: image_path :: rest)).printed) := by
  constructor
  · intro argv hlen
    match argv, hlen with
    | [], _ => rfl
    | [_], _ => rfl
  · intro prog image_path rest e he
    refine ⟨?_, ?_, ?_⟩ <;> simp [vision_main, he]

theorem vision_main_failure_exits_witness :
    (([] : List String).length < 2
      ∧ encode_image (fun _ => none) "x.png" = .error (.fileNotFound "x.png"))
    ∧ (vision_main (fun _ => none) (fun _ _ => ⟨"", 0, 0⟩) [] =
        ⟨["Usage: python bedrock_vision.py <path_to_image>",
           "\nExample: python bedrock_vision.py /path/to/image.png"], 0, 1⟩
      ∧ ((vision_main (fun _ => none) (fun _ _ => ⟨"", 0, 0⟩)
            ("prog" :: "x.png" :: [])).exitCode = 1
        ∧ (vision_main (fun _ => none) (fun _ _ => ⟨"", 0, 0⟩)
            ("prog" :: "x.png" :: [])).networkCalls = 0
        ∧ ("❌ Error: " ++ encodeErrorMessage (.fileNotFound "x.png")) ∈
            (vision_main (fun _ => none) (fun _ _ => ⟨"", 0, 0⟩)
              ("prog" :: "x.png" :: [])).printed)) :=
  ⟨⟨by decide, rfl⟩,
    (vision_main_failure_exits (fun _ => none) (fun _ _ => ⟨"", 0, 0⟩)).1 []
      (by decide),
    (vision_main_failure_exits (fun _ => none) (fun _ _ => ⟨"", 0, 0⟩)).2
      "prog" "x.png" [] (.fileNotFound "x.png") rfl⟩

end ClaudePlatforms
